import Mathlib

/-!
Verification of the quiz/flashcard parsing pipeline of the profai repository.

The definitions below are a shallow embedding, over `List Char` and a JSON
value type, of the Python functions

  * `PersonalizedQuizGenerator._parse_quiz_response`
  * `PersonalizedQuizGenerator._generate_better_fallback_quiz`
  * `PersonalizedQuizGenerator.evaluate_quiz_results`
  * `PersonalizedQuizGenerator._generate_recommendations`
    (src/profai/quiz_generator.py), and
  * the response-parsing part of `YouTubeProcessor.generate_flashcards`
    (src/profai/youtube_processor.py).

Modelling conventions, used throughout:

  * Python strings are `List Char` (wrapped in `String` at the interface);
  * Python exceptions are `Option`/`Except`: a `none`/`.error` result of an
    embedded step is the step raising, and the embedding of a `try/except`
    block dispatches on it exactly where the source catches;
  * `json.loads` is embedded as a recursive-descent parser with the same
    grammar the CPython decoder accepts on the inputs that occur here
    (objects, arrays, strings with escapes, integer numerals, `true`,
    `false`, `null`, strict rejection of raw control characters, whole-input
    consumption, duplicate object keys overwriting in place).  JSON numeric
    literals are modelled as integers; the quiz/flashcard schema only ever
    carries integers, and none of the theorems below depends on fractional
    numerals (`float` payloads would only change which inputs reach the
    recovery branches, which every theorem either quantifies over or fixes
    concretely with integer-only input);
  * `re.sub`/`re.search`/`re.findall` on the fixed patterns appearing in the
    source are embedded as recursive scanners implementing exactly the
    leftmost, non-overlapping, greedy-with-backtracking semantics of those
    patterns, without rescanning replaced output;
  * recursion that consumes a non-structural suffix carries an explicit fuel
    argument; every wrapper passes `length + 1`, which the scanners never
    exhaust.
-/

namespace ProfAI

set_option maxRecDepth 100000

set_option maxHeartbeats 2000000

/-! ## Character constants

Named constants for the delimiter characters, so that brace and quote
literals never appear in the Lean source text. -/

def lbr : Char := Char.ofNat 123

def rbr : Char := Char.ofNat 125

def lbk : Char := Char.ofNat 91

def rbk : Char := Char.ofNat 93

def dq : Char := Char.ofNat 34

def bsl : Char := Char.ofNat 92

def ltc : Char := Char.ofNat 60

def gtc : Char := Char.ofNat 62

def cmm : Char := Char.ofNat 44

def cln : Char := Char.ofNat 58

def apo : Char := Char.ofNat 39

def geSym : Char := Char.ofNat 0x2265

def leSym : Char := Char.ofNat 0x2264

def infSym : Char := Char.ofNat 0x221E

def elemSym : Char := Char.ofNat 0x2208

def forallSym : Char := Char.ofNat 0x2200

def existsSym : Char := Char.ofNat 0x2203

/-! ## Generic list and string helpers -/

/-- Python whitespace test restricted to the ASCII whitespace characters
(space, tab, newline, carriage return, form feed, vertical tab); all inputs
handled here are in this range. -/
def pySpace (c : Char) : Bool :=
  c = ' ' || c = '\t' || c = '\n' || c = '\r' || c = Char.ofNat 12 || c = Char.ofNat 11

/-- JSON whitespace (space, tab, newline, carriage return), as skipped by the
CPython decoder between tokens. -/
def jsonSpace (c : Char) : Bool :=
  c = ' ' || c = '\t' || c = '\n' || c = '\r'

/-- Whether `pat` is a leading segment of `cs` (character-by-character). -/
def leadMatch : List Char → List Char → Bool
  | [], _ => true
  | _ :: _, [] => false
  | p :: ps, c :: cs => p = c && leadMatch ps cs

/-- Python `pat in s` substring test. -/
def hasSub (pat : List Char) : List Char → Bool
  | [] => leadMatch pat []
  | c :: cs => leadMatch pat (c :: cs) || hasSub pat cs

/-- Python `s.rfind(pat)`: start index of the rightmost occurrence. -/
def rfindSub (pat : List Char) : List Char → Option Nat
  | [] => if leadMatch pat [] then some 0 else none
  | c :: cs =>
    match rfindSub pat cs with
    | some i => some (i + 1)
    | none => if leadMatch pat (c :: cs) then some 0 else none

/-- Python `s.find(ch)`: index of the first occurrence of a character. -/
def findCh (ch : Char) : List Char → Option Nat
  | [] => none
  | c :: cs => if c = ch then some 0 else (findCh ch cs).map (· + 1)

/-- Python `s.rfind(ch)` for a single character. -/
def rfindCh (ch : Char) : List Char → Option Nat
  | [] => none
  | c :: cs =>
    match rfindCh ch cs with
    | some i => some (i + 1)
    | none => if c = ch then some 0 else none

/-- Python `s.strip()` on ASCII-whitespace boundaries. -/
def pyStripChars (cs : List Char) : List Char :=
  ((cs.dropWhile pySpace).reverse.dropWhile pySpace).reverse

/-- Python `s[-n:]`: the last `n` characters (the whole list when shorter). -/
def lastN (n : Nat) (cs : List Char) : List Char :=
  cs.drop (cs.length - n)

/-- Python `s.endswith(ch)` for a single character. -/
def endsWithCh (ch : Char) (cs : List Char) : Bool :=
  match cs.reverse with
  | [] => false
  | c :: _ => c = ch

/-- Count of occurrences of a character, Python `s.count(ch)`. -/
def countCh (ch : Char) (cs : List Char) : Nat :=
  (cs.filter (· = ch)).length

/-! ## JSON values and Python object semantics

`Json` is the value universe produced by `json.loads` on the inputs handled
here (numeric literals as integers, see the file header).  The `py...`
helpers embed the Python operations the two parsing methods apply to these
values; a `none` result is the operation raising (`TypeError`,
`AttributeError`, `ValueError`), which the call sites dispatch on exactly
where the source catches. -/

inductive Json where
  | null : Json
  | bool (b : Bool) : Json
  | num (n : Int) : Json
  | str (s : List Char) : Json
  | arr (elems : List Json) : Json
  | obj (pairs : List (List Char × Json)) : Json
deriving Repr

mutual

/-- Decidable equality on `Json`, written by hand because the deriving
handler does not support the nested occurrence under `List`. -/
def Json.decEq : (a b : Json) → Decidable (a = b)
  | .null, .null => isTrue rfl
  | .bool a, .bool b =>
    if h : a = b then isTrue (by rw [h])
    else isFalse (fun hh => h (Json.bool.inj hh))
  | .num a, .num b =>
    if h : a = b then isTrue (by rw [h])
    else isFalse (fun hh => h (Json.num.inj hh))
  | .str a, .str b =>
    if h : a = b then isTrue (by rw [h])
    else isFalse (fun hh => h (Json.str.inj hh))
  | .arr a, .arr b =>
    match Json.decEqList a b with
    | isTrue h => isTrue (by rw [h])
    | isFalse h => isFalse (fun hh => h (Json.arr.inj hh))
  | .obj a, .obj b =>
    match Json.decEqPairs a b with
    | isTrue h => isTrue (by rw [h])
    | isFalse h => isFalse (fun hh => h (Json.obj.inj hh))
  | .null, .bool _ => isFalse nofun
  | .null, .num _ => isFalse nofun
  | .null, .str _ => isFalse nofun
  | .null, .arr _ => isFalse nofun
  | .null, .obj _ => isFalse nofun
  | .bool _, .null => isFalse nofun
  | .bool _, .num _ => isFalse nofun
  | .bool _, .str _ => isFalse nofun
  | .bool _, .arr _ => isFalse nofun
  | .bool _, .obj _ => isFalse nofun
  | .num _, .null => isFalse nofun
  | .num _, .bool _ => isFalse nofun
  | .num _, .str _ => isFalse nofun
  | .num _, .arr _ => isFalse nofun
  | .num _, .obj _ => isFalse nofun
  | .str _, .null => isFalse nofun
  | .str _, .bool _ => isFalse nofun
  | .str _, .num _ => isFalse nofun
  | .str _, .arr _ => isFalse nofun
  | .str _, .obj _ => isFalse nofun
  | .arr _, .null => isFalse nofun
  | .arr _, .bool _ => isFalse nofun
  | .arr _, .num _ => isFalse nofun
  | .arr _, .str _ => isFalse nofun
  | .arr _, .obj _ => isFalse nofun
  | .obj _, .null => isFalse nofun
  | .obj _, .bool _ => isFalse nofun
  | .obj _, .num _ => isFalse nofun
  | .obj _, .str _ => isFalse nofun
  | .obj _, .arr _ => isFalse nofun

/-- Decidable equality on lists of `Json`. -/
def Json.decEqList : (a b : List Json) → Decidable (a = b)
  | [], [] => isTrue rfl
  | [], _ :: _ => isFalse nofun
  | _ :: _, [] => isFalse nofun
  | x :: xs, y :: ys =>
    match Json.decEq x y with
    | isFalse h => isFalse (fun hh => h (List.cons.inj hh).1)
    | isTrue h1 =>
      match Json.decEqList xs ys with
      | isTrue h2 => isTrue (by rw [h1, h2])
      | isFalse h => isFalse (fun hh => h (List.cons.inj hh).2)

/-- Decidable equality on object member lists. -/
def Json.decEqPairs : (a b : List (List Char × Json)) → Decidable (a = b)
  | [], [] => isTrue rfl
  | [], _ :: _ => isFalse nofun
  | _ :: _, [] => isFalse nofun
  | (k1, v1) :: xs, (k2, v2) :: ys =>
    if hk : k1 = k2 then
      match Json.decEq v1 v2 with
      | isTrue hv =>
        match Json.decEqPairs xs ys with
        | isTrue ht => isTrue (by rw [hk, hv, ht])
        | isFalse h => isFalse (fun hh => h (List.cons.inj hh).2)
      | isFalse h => isFalse (fun hh => h (congrArg Prod.snd (List.cons.inj hh).1))
    else isFalse (fun hh => hk (congrArg Prod.fst (List.cons.inj hh).1))

end

instance : DecidableEq Json := Json.decEq

/-- Building an object member list: a repeated key overwrites the stored
value in place, as the CPython decoder's dict construction does. -/
def objInsert (pairs : List (List Char × Json)) (k : List Char) (v : Json) :
    List (List Char × Json) :=
  match pairs with
  | [] => [(k, v)]
  | (k0, v0) :: rest =>
    if k0 = k then (k0, v) :: rest else (k0, v0) :: objInsert rest k v

/-- Python `d[k]` lookup on the member list (keys are unique by
construction, so the first match is the binding). -/
def objFind (pairs : List (List Char × Json)) (k : List Char) : Option Json :=
  match pairs with
  | [] => none
  | (k0, v0) :: rest => if k0 = k then some v0 else objFind rest k

/-- Python `d.get(k, default)`. -/
def objGetD (pairs : List (List Char × Json)) (k : List Char) (d : Json) : Json :=
  match objFind pairs k with
  | some v => v
  | none => d

/-- Python truthiness of a JSON-shaped value. -/
def pyTruthy : Json → Bool
  | .null => false
  | .bool b => b
  | .num n => n != 0
  | .str s => !s.isEmpty
  | .arr xs => !xs.isEmpty
  | .obj ps => !ps.isEmpty

/-- Python `len(v)`; `none` is the `TypeError` raised on unsized values. -/
def pyLen : Json → Option Nat
  | .str s => some s.length
  | .arr xs => some xs.length
  | .obj ps => some ps.length
  | _ => none

/-- Python iteration over a value (`for x in v`): arrays yield elements,
strings yield one-character strings, dicts yield their keys; `none` is the
`TypeError` on non-iterables. -/
def pyIter : Json → Option (List Json)
  | .arr xs => some xs
  | .str s => some (s.map (fun c => Json.str [c]))
  | .obj ps => some (ps.map (fun p => Json.str p.1))
  | _ => none

/-- Python `int(v)`: integers pass through, booleans coerce, strings are
parsed after stripping whitespace with an optional sign; everything else
(and a malformed string) raises, giving `none`. -/
def pyInt (v : Json) : Option Int :=
  match v with
  | .num n => some n
  | .bool b => some (if b then 1 else 0)
  | .str s =>
    let t := pyStripChars s
    let (sign, digits) : Int × List Char :=
      match t with
      | c :: rest => if c = '-' then (-1, rest) else if c = '+' then (1, rest) else (1, t)
      | [] => (1, t)
    if digits ≠ [] && digits.all (·.isDigit) then
      some (sign * (digits.foldl (fun a c => a * 10 + (c.toNat - 48)) 0 : Nat))
    else none
  | _ => none

/-- Python `v.strip()`: only strings have the method, so `none` embeds the
`AttributeError` on every other value. -/
def pyStrip : Json → Option (List Char)
  | .str s => some (pyStripChars s)
  | _ => none

/-! ## The strict parser: `json.loads`

A recursive-descent embedding of the CPython decoder on the grammar the
pipeline feeds it: objects, arrays, strings with the standard escapes,
integer numerals (see the file header for the numeric-literal convention),
`true`/`false`/`null`.  Raw control characters inside strings are rejected
(`strict=True`), the whole input must be consumed up to trailing JSON
whitespace, and a parse failure is `none`, embedding `json.JSONDecodeError`. -/

def skipWs (cs : List Char) : List Char := cs.dropWhile jsonSpace

/-- Value of a hexadecimal digit. -/
def hexVal (c : Char) : Option Nat :=
  if c.isDigit then some (c.toNat - 48)
  else if 'a' ≤ c && c ≤ 'f' then some (c.toNat - 87)
  else if 'A' ≤ c && c ≤ 'F' then some (c.toNat - 55)
  else none

/-- Match a literal character sequence, returning the remainder. -/
def dropLit : List Char → List Char → Option (List Char)
  | [], cs => some cs
  | _ :: _, [] => none
  | p :: ps, c :: cs => if p = c then dropLit ps cs else none

/-- Parse a JSON string body (the opening quote already consumed), decoding
escapes and rejecting raw control characters. -/
def parseJStr : Nat → List Char → Option (List Char × List Char)
  | 0, _ => none
  | fuel + 1, cs =>
    match cs with
    | [] => none
    | c :: rest =>
      if c = dq then some ([], rest)
      else if c = bsl then
        match rest with
        | [] => none
        | e :: rest2 =>
          let plain (ch : Char) : Option (List Char × List Char) :=
            (parseJStr fuel rest2).map (fun p => (ch :: p.1, p.2))
          if e = dq then plain dq
          else if e = bsl then plain bsl
          else if e = '/' then plain '/'
          else if e = 'b' then plain (Char.ofNat 8)
          else if e = 'f' then plain (Char.ofNat 12)
          else if e = 'n' then plain '\n'
          else if e = 'r' then plain '\r'
          else if e = 't' then plain '\t'
          else if e = 'u' then
            match rest2 with
            | h1 :: h2 :: h3 :: h4 :: rest3 =>
              match hexVal h1, hexVal h2, hexVal h3, hexVal h4 with
              | some a, some b, some c3, some d =>
                (parseJStr fuel rest3).map
                  (fun p => (Char.ofNat (((a * 16 + b) * 16 + c3) * 16 + d) :: p.1, p.2))
              | _, _, _, _ => none
            | _ => none
          else none
      else if c.toNat < 32 then none
      else (parseJStr fuel rest).map (fun p => (c :: p.1, p.2))

/-- Parse a JSON integer numeral (optional minus sign, no leading zeros);
fractional or exponent continuations are not modelled and fail. -/
def parseJNum (cs : List Char) : Option (Int × List Char) :=
  let (neg, cs1) : Bool × List Char :=
    match cs with
    | c :: rest => if c = '-' then (true, rest) else (false, cs)
    | [] => (false, cs)
  let digits := cs1.takeWhile (·.isDigit)
  let rest := cs1.dropWhile (·.isDigit)
  if digits.isEmpty then none
  else if 2 ≤ digits.length && digits.head? = some '0' then none
  else
    match rest with
    | c :: _ =>
      if c = '.' || c = 'e' || c = 'E' then none
      else
        let v : Nat := digits.foldl (fun a c => a * 10 + (c.toNat - 48)) 0
        some (if neg then -(v : Int) else (v : Int), rest)
    | [] =>
      let v : Nat := digits.foldl (fun a c => a * 10 + (c.toNat - 48)) 0
      some (if neg then -(v : Int) else (v : Int), rest)

mutual

/-- Parse one JSON value, skipping leading whitespace. -/
def parseJVal : Nat → List Char → Option (Json × List Char)
  | 0, _ => none
  | fuel + 1, cs =>
    match skipWs cs with
    | [] => none
    | c :: rest =>
      if c = dq then (parseJStr (rest.length + 1) rest).map (fun p => (Json.str p.1, p.2))
      else if c = lbr then
        match skipWs rest with
        | c2 :: rest2 =>
          if c2 = rbr then some (Json.obj [], rest2)
          else (parseJMembers fuel (c2 :: rest2) []).map (fun p => (Json.obj p.1, p.2))
        | [] => none
      else if c = lbk then
        match skipWs rest with
        | c2 :: rest2 =>
          if c2 = rbk then some (Json.arr [], rest2)
          else (parseJElems fuel (c2 :: rest2)).map (fun p => (Json.arr p.1, p.2))
        | [] => none
      else if c = 't' then (dropLit (['r', 'u', 'e']) rest).map (fun r => (Json.bool true, r))
      else if c = 'f' then (dropLit (['a', 'l', 's', 'e']) rest).map (fun r => (Json.bool false, r))
      else if c = 'n' then (dropLit (['u', 'l', 'l']) rest).map (fun r => (Json.null, r))
      else if c = '-' || c.isDigit then (parseJNum (c :: rest)).map (fun p => (Json.num p.1, p.2))
      else none

/-- Parse the members of an object (positioned at a property name), with the
accumulated member list; a repeated key overwrites in place. -/
def parseJMembers : Nat → List Char → List (List Char × Json) →
    Option (List (List Char × Json) × List Char)
  | 0, _, _ => none
  | fuel + 1, cs, acc =>
    match skipWs cs with
    | c :: rest =>
      if c = dq then
        match parseJStr (rest.length + 1) rest with
        | none => none
        | some (key, rest2) =>
          match skipWs rest2 with
          | c2 :: rest3 =>
            if c2 = cln then
              match parseJVal fuel rest3 with
              | none => none
              | some (v, rest4) =>
                let acc2 := objInsert acc key v
                match skipWs rest4 with
                | c3 :: rest5 =>
                  if c3 = cmm then parseJMembers fuel rest5 acc2
                  else if c3 = rbr then some (acc2, rest5)
                  else none
                | [] => none
            else none
          | [] => none
      else none
    | [] => none

/-- Parse the elements of a non-empty array (positioned at the first
element). -/
def parseJElems : Nat → List Char → Option (List Json × List Char)
  | 0, _ => none
  | fuel + 1, cs =>
    match parseJVal fuel cs with
    | none => none
    | some (v, rest) =>
      match skipWs rest with
      | c :: rest2 =>
        if c = cmm then (parseJElems fuel rest2).map (fun p => (v :: p.1, p.2))
        else if c = rbk then some ([v], rest2)
        else none
      | [] => none

end

/-- Embedding of `json.loads`: parse one value and demand that only JSON
whitespace follows it. -/
def json_loads (cs : List Char) : Option Json :=
  match parseJVal (cs.length + 1) cs with
  | some (v, rest) => if (skipWs rest).isEmpty then some v else none
  | none => none

/-! ## The Sanitizer (quiz_generator.py lines 219-242)

Each `re.sub`/`str.replace` of `_parse_quiz_response` is embedded as a
left-to-right scanner with the leftmost, non-overlapping, no-rescan
semantics of the corresponding pattern. -/

/-- Split a character list at its first close-angle character: the span
before it (which therefore contains no close angle) and the remainder after
it. -/
def splitAtGt : List Char → Option (List Char × List Char)
  | [] => none
  | c :: cs =>
    if c = gtc then some ([], cs)
    else (splitAtGt cs).map (fun p => (c :: p.1, p.2))

/-- Embedding of `re.sub(r'<[^>]+>', '', s)`: a match runs from an open
angle to the first close angle after it with at least one character in
between; matched spans are deleted and scanning resumes after them. -/
def removeTags : Nat → List Char → List Char
  | 0, cs => cs
  | _ + 1, [] => []
  | fuel + 1, c :: cs =>
    if c = ltc then
      match splitAtGt cs with
      | some (before, after) =>
        if before.isEmpty then c :: removeTags fuel cs else removeTags fuel after
      | none => c :: removeTags fuel cs
    else c :: removeTags fuel cs

/-- Python `s.replace(pat, rep)` for a single-character pattern. -/
def replCh (pat : Char) (rep : List Char) (cs : List Char) : List Char :=
  cs.flatMap (fun c => if c = pat then rep else [c])

/-- The six `str.replace` calls normalising mathematical symbols, in source
order. -/
def symbolReplace (cs : List Char) : List Char :=
  replCh existsSym ("there exists".toList)
    (replCh forallSym ("for all".toList)
      (replCh elemSym ("in".toList)
        (replCh infSym ("infinity".toList)
          (replCh leSym ("<=".toList)
            (replCh geSym (">=".toList) cs)))))

/-- Embedding of `re.sub(r'<([^>]*?)>', r'(\\1)', s)`: a match runs from an
open angle to the first close angle after it (empty interior allowed); the
replacement template escapes the backreference, so every match is replaced
by the literal four characters open paren, backslash, digit one, close
paren. -/
def angleSub : Nat → List Char → List Char
  | 0, cs => cs
  | _ + 1, [] => []
  | fuel + 1, c :: cs =>
    if c = ltc then
      match splitAtGt cs with
      | some (_, after) => '(' :: bsl :: '1' :: ')' :: angleSub fuel after
      | none => c :: angleSub fuel cs
    else c :: angleSub fuel cs

/-- Embedding of `re.sub(r',\s*X', 'X', s)` for a closing delimiter `X`: a
comma, a maximal whitespace run and the delimiter collapse to the delimiter
alone. -/
def commaClose (close : Char) : Nat → List Char → List Char
  | 0, cs => cs
  | _ + 1, [] => []
  | fuel + 1, c :: cs =>
    if c = cmm then
      let rest := cs.dropWhile pySpace
      match rest with
      | r :: rest2 =>
        if r = close then close :: commaClose close fuel rest2
        else c :: commaClose close fuel cs
      | [] => c :: commaClose close fuel cs
    else c :: commaClose close fuel cs

/-- Python `s.replace(pat, rep)` for a multi-character pattern, leftmost and
non-overlapping. -/
def replaceSub (pat rep : List Char) : Nat → List Char → List Char
  | 0, cs => cs
  | _ + 1, [] => []
  | fuel + 1, c :: cs =>
    if leadMatch pat (c :: cs) then rep ++ replaceSub pat rep fuel ((c :: cs).drop pat.length)
    else c :: replaceSub pat rep fuel cs

/-- The pattern string of the single `str.replace` call that line 242
actually performs.  The line reads, in ASCII,
`json_str.replace(QQQ, "Q").replace(QQQ, "Q")` with every `Q` an
apostrophe; the first three apostrophes open a triple-quoted string that
runs to the next three consecutive apostrophes, so the whole line is one
call replacing the fifteen-character literal comma, space, double quote,
apostrophe, double quote, close paren, dot, r, e, p, l, a, c, e, open
paren with a single apostrophe. -/
def line242Literal : List Char :=
  cmm :: ' ' :: dq :: apo :: dq :: ')' :: '.' :: 'r' :: 'e' :: 'p' :: 'l' :: 'a' :: 'c'
    :: 'e' :: ['(']

/-- The full Sanitizer of `_parse_quiz_response` (lines 219-242), stage
composition in source order: tag stripping, symbol replacement, angle
substitution, trailing-comma removal before close brace then close
bracket, and the quote stage of lines 241-242.  Despite the comment in the
source announcing smart-quote normalisation, those two lines are pure
ASCII: line 241 chains two replaces of the straight double quote by
itself, and line 242 tokenizes as a single replace of `line242Literal` by
an apostrophe (see its docstring). -/
def sanitize (cs : List Char) : List Char :=
  let s1 := removeTags (cs.length + 1) cs
  let s2 := symbolReplace s1
  let s3 := angleSub (s2.length + 1) s2
  let s4 := commaClose rbr (s3.length + 1) s3
  let s5 := commaClose rbk (s4.length + 1) s4
  let s6 := replCh dq [dq] (replCh dq [dq] s5)
  replaceSub line242Literal [apo] (s6.length + 1) s6

/-- Invariant used by the idempotence analysis of the Sanitizer: no close
angle occurs anywhere after the first open angle, hence neither tag
stripping nor angle substitution can find a match. -/
def noAngle (cs : List Char) : Bool :=
  (cs.dropWhile (fun c => c != ltc)).all (fun c => c != gtc)

/-- Absence of all six mathematical symbols the Sanitizer replaces. -/
def noSym (c : Char) : Bool :=
  (c != geSym) && (c != leSym) && (c != infSym)
    && (c != elemSym) && (c != forallSym) && (c != existsSym)

/-! ## The Boundary Locator (lines 154-170) -/

/-- The brace scan of `_parse_quiz_response` lines 161-170: starting at the
first open brace, every open brace increments and every close brace
decrements a counter, with no awareness of string literals; the result is
the length of the segment ending at the close brace that returns the counter
to zero, or `none` when the counter never does. -/
def scanEnd (cs : List Char) : Option Nat :=
  go cs 0 0
where
  go : List Char → Int → Nat → Option Nat
    | [], _, _ => none
    | c :: cs, cnt, pos =>
      let cnt2 := if c = lbr then cnt + 1 else if c = rbr then cnt - 1 else cnt
      if c = rbr && cnt2 = 0 then some (pos + 1)
      else go cs cnt2 (pos + 1)

/-- Modelled from the spec: the Boundary Locator that section 4.1 describes,
which counts delimiters only outside quoted string literals and treats a
backslash-escaped quote as not ending a string.  Stated only to compare with
`scanEnd`, the locator the code actually implements. -/
def scanEndSpec (cs : List Char) : Option Nat :=
  go cs 0 0 false false
where
  go : List Char → Int → Nat → Bool → Bool → Option Nat
    | [], _, _, _, _ => none
    | c :: cs, cnt, pos, inStr, esc =>
      if esc then go cs cnt (pos + 1) inStr false
      else if inStr then
        if c = bsl then go cs cnt (pos + 1) inStr true
        else if c = dq then go cs cnt (pos + 1) false false
        else go cs cnt (pos + 1) inStr false
      else if c = dq then go cs cnt (pos + 1) true false
      else
        let cnt2 := if c = lbr then cnt + 1 else if c = rbr then cnt - 1 else cnt
        if c = rbr && cnt2 = 0 then some (pos + 1)
        else go cs cnt2 (pos + 1) inStr false

/-! ## The Repair Engine (lines 172-215) -/

/-- One step of the string-state walk of lines 178-197: escape flag first,
backslash sets it, an unescaped quote toggles the in-string flag. -/
def stepStr (st : Bool × Bool) (c : Char) : Bool × Bool :=
  if st.2 then (st.1, false)
  else if c = bsl then (st.1, true)
  else if c = dq then (!st.1, false)
  else (st.1, false)

/-- The string-state walk over a whole text, starting outside a string with
the escape flag clear. -/
def walkState (cs : List Char) : Bool × Bool :=
  cs.foldl stepStr (false, false)

/-- The literal open-brace, quote, id, quote, colon fragment searched for in
the last hundred characters (line 208). -/
def idMarker : List Char := lbr :: dq :: 'i' :: 'd' :: dq :: [cln]

/-- The literal fragment of four spaces, close brace, comma searched
backwards for the last complete record (line 211). -/
def closeMarker : List Char := ' ' :: ' ' :: ' ' :: ' ' :: rbr :: [cmm]

/-- The Repair Engine of lines 172-215, applied to the text from the first
open brace onward when the brace scan found no balanced end: the walk copies
the text unchanged and records the final string state; an unterminated
string is closed; the surpluses of open braces and open brackets are counted
on that text; if the last hundred characters contain the id marker and the
stripped text ends in a quote, everything after the last close-brace-comma
marker is dropped; finally the bracket and brace surpluses counted before
the drop are appended, all brackets first. -/
def repairJson (tail : List Char) : List Char :=
  let completed := if (walkState tail).1 then tail ++ [dq] else tail
  let openBraces : Int := (countCh lbr completed : Int) - (countCh rbr completed : Int)
  let openBrackets : Int := (countCh lbk completed : Int) - (countCh rbk completed : Int)
  let completed2 :=
    if hasSub idMarker (lastN 100 completed) && endsWithCh dq (pyStripChars completed) then
      match rfindSub closeMarker completed with
      | some idx => completed.take (idx + 6)
      | none => completed
    else completed
  completed2 ++ List.replicate openBrackets.toNat rbk ++ List.replicate openBraces.toNat rbr

/-! ## Quiz records, the Fallback Library and the Validator & Assembler
(quiz_generator.py lines 11-20, 248-288, 290-398)

`QuizQuestion` mirrors the dataclass; the fields the code stores without
coercion (`id`, `options`, `difficulty`, `topic`, `concepts`) keep the raw
parsed value, since the dataclass performs no type enforcement, while
`question`/`explanation` pass through `.strip()` and `correct_answer`
through `int(...)`, which force their types. -/

structure QuizQuestion where
  id : Json
  question : List Char
  options : Json
  correct_answer : Int
  explanation : List Char
  difficulty : Json
  topic : Json
  concepts : Json
deriving Repr, DecidableEq

/-- Shorthand for building a string-field value. -/
def jstr (s : String) : Json := Json.str s.toList

/-- Shorthand for building a list-of-strings field value. -/
def jlist (ss : List String) : Json := Json.arr (ss.map jstr)

/-- The synthesized identifier of the record at position `i` (zero-based):
the letter q followed by the decimal rendering of `i + 1`, as the f-string
default of line 260 produces. -/
def qId (i : Nat) : List Char := 'q' :: (Nat.repr (i + 1)).toList

/-- The Fallback Library: `_generate_better_fallback_quiz` (lines 290-398),
transcribed record for record. -/
def generate_better_fallback_quiz : List QuizQuestion :=
  [ { id := jstr ("fallback1")
    , question := ("What is a variable in programming?").toList
    , options := jlist
        [ "A container that stores data values"
        , "A type of loop structure"
        , "A mathematical equation"
        , "A debugging tool" ]
    , correct_answer := 0
    , explanation := ("A variable is a container that stores data values that can be changed during program execution.").toList
    , difficulty := jstr ("easy")
    , topic := jstr ("variables")
    , concepts := jlist ["programming basics", "data storage"] }
  , { id := jstr ("fallback2")
    , question := ("What does a loop do in programming?").toList
    , options := jlist
        [ "Stores data permanently"
        , "Repeats a block of code multiple times"
        , "Creates user interfaces"
        , "Connects to the internet" ]
    , correct_answer := 1
    , explanation := ("Loops allow you to repeat a block of code multiple times, which is essential for automation and efficiency.").toList
    , difficulty := jstr ("easy")
    , topic := jstr ("loops")
    , concepts := jlist ["control structures", "repetition"] }
  , { id := jstr ("fallback3")
    , question := ("What is the purpose of an if statement?").toList
    , options := jlist
        [ "To repeat code continuously"
        , "To store user input"
        , "To make decisions based on conditions"
        , "To display output to users" ]
    , correct_answer := 2
    , explanation := ("If statements allow programs to make decisions by executing different code based on whether conditions are true or false.").toList
    , difficulty := jstr ("medium")
    , topic := jstr ("conditionals")
    , concepts := jlist ["decision making", "logic"] }
  , { id := jstr ("fallback4")
    , question := ("What is debugging in programming?").toList
    , options := jlist
        [ "Writing new code features"
        , "Finding and fixing errors in code"
        , "Designing user interfaces"
        , "Testing code performance" ]
    , correct_answer := 1
    , explanation := ("Debugging is the process of finding and fixing bugs (errors) in your code to make it work correctly.").toList
    , difficulty := jstr ("medium")
    , topic := jstr ("debugging")
    , concepts := jlist ["problem solving", "error fixing"] }
  , { id := jstr ("fallback5")
    , question := ("Which of these is a good practice when writing code?").toList
    , options := jlist
        [ "Never add comments to explain your code"
        , "Use meaningful names for variables and functions"
        , "Write all code in one long line"
        , "Ignore error messages completely" ]
    , correct_answer := 1
    , explanation := ("Using meaningful names makes your code easier to read and understand for yourself and others.").toList
    , difficulty := jstr ("medium")
    , topic := jstr ("best practices")
    , concepts := jlist ["code quality", "readability"] }
  , { id := jstr ("fallback6")
    , question := ("What is an algorithm?").toList
    , options := jlist
        [ "A programming language"
        , "A step-by-step procedure to solve a problem"
        , "A type of computer hardware"
        , "A debugging tool" ]
    , correct_answer := 1
    , explanation := ("An algorithm is a step-by-step procedure or set of rules for solving a problem or completing a task.").toList
    , difficulty := jstr ("easy")
    , topic := jstr ("algorithms")
    , concepts := jlist ["problem solving", "logic"] }
  , { id := jstr ("fallback7")
    , question := ("What happens when you run a program?").toList
    , options := jlist
        [ "The code is deleted from memory"
        , "The computer translates and executes your instructions"
        , "The code is automatically corrected"
        , "Nothing happens until you debug it" ]
    , correct_answer := 1
    , explanation := ("When you run a program, the computer translates your code into machine instructions and executes them step by step.").toList
    , difficulty := jstr ("medium")
    , topic := jstr ("program execution")
    , concepts := jlist ["computer processing", "code execution"] } ]

/-- The per-record Validator of lines 249-273, for the record at enumerate
position `i`: a non-dict item, a falsy question or options value, an
unsized options value, an options length under two, or a construction-time
exception (non-string strip, unconvertible correct answer) all yield `none`,
embedding the `continue`; otherwise the record is assembled with the
documented defaults. -/
def buildQuestion (i : Nat) (q_data : Json) : Option QuizQuestion :=
  match q_data with
  | .obj kvs =>
    if !pyTruthy (objGetD kvs ("question".toList) Json.null)
        || !pyTruthy (objGetD kvs ("options".toList) Json.null) then none
    else
      match pyLen (objGetD kvs ("options".toList) (Json.arr [])) with
      | none => none
      | some n =>
        if n < 2 then none
        else
          match pyStrip (objGetD kvs ("question".toList) (jstr (""))) with
          | none => none
          | some questionS =>
            match pyInt (objGetD kvs ("correct_answer".toList) (Json.num 0)) with
            | none => none
            | some ca =>
              match pyStrip (objGetD kvs ("explanation".toList) (jstr (""))) with
              | none => none
              | some explS =>
                some
                  { id := objGetD kvs ("id".toList) (Json.str (qId i))
                  , question := questionS
                  , options := objGetD kvs ("options".toList) (Json.arr [])
                  , correct_answer := ca
                  , explanation := explS
                  , difficulty := objGetD kvs ("difficulty".toList) (jstr ("medium"))
                  , topic := objGetD kvs ("topic".toList) (jstr ("general"))
                  , concepts := objGetD kvs ("concepts".toList) (jlist ["general"]) }
  | _ => none

/-- The record loop of lines 248-273: enumerate the items and keep the
records the Validator accepts. -/
def buildQuestions (items : List Json) : List QuizQuestion :=
  items.enum.filterMap (fun p => buildQuestion p.1 p.2)

/-! ## The full pipeline: `_parse_quiz_response` (lines 147-288) -/

/-- The body of the outer `try` of `_parse_quiz_response`, with `.error ()`
at exactly the points where an exception escapes to the outer handlers: the
strict-parser failure (caught at line 282) and the attribute or type errors
of using a non-dict payload or a non-iterable questions value (caught at
line 286).  The early fallback returns inside the `try` (no opening brace,
zero validated records) are ordinary `.ok` results. -/
def parse_quiz_try (response : List Char) : Except Unit (List QuizQuestion) :=
  match findCh lbr response with
  | none => .ok generate_better_fallback_quiz
  | some js =>
    let tail := response.drop js
    let json_str :=
      match scanEnd tail with
      | some len => tail.take len
      | none => repairJson tail
    let cleaned := sanitize json_str
    match json_loads cleaned with
    | none => .error ()
    | some quizData =>
      match quizData with
      | .obj kvs =>
        match pyIter (objGetD kvs ("questions".toList) (Json.arr [])) with
        | none => .error ()
        | some items =>
          let questions := buildQuestions items
          if 0 < questions.length then .ok questions
          else .ok generate_better_fallback_quiz
      | _ => .error ()

/-- `_parse_quiz_response`: the outer `try/except` absorbs every escaping
exception into the Fallback Library, so the method is a total function into
a record list. -/
def parse_quiz_response (response : List Char) : List QuizQuestion :=
  match parse_quiz_try response with
  | .ok qs => qs
  | .error _ => generate_better_fallback_quiz

/-! ## The flashcard path: `YouTubeProcessor.generate_flashcards`
(youtube_processor.py lines 199-355), from the model response onward

The prompt construction and the network call are out of scope; the
embedding starts at the received response text (line 249). -/

structure Flashcard where
  id : List Char
  question : List Char
  answer : List Char
  category : Json
  difficulty : Json
  tags : Json
  status : List Char
  review_count : Int
  created_at : List Char
  last_reviewed : List Char
deriving Repr, DecidableEq

/-- Split a character list at its first double quote. -/
def splitAtDq : List Char → Option (List Char × List Char)
  | [] => none
  | c :: cs =>
    if c = dq then some ([], cs)
    else (splitAtDq cs).map (fun p => (c :: p.1, p.2))

/-- Embedding of the `re.search` of line 252, whose pattern is an open
brace, a greedy dot-all span, and a close brace, followed by `.group()`:
a match exists exactly when the first open brace precedes the last close
brace, and the greedy match spans from that open brace to that last close
brace. -/
def searchBracePair (cs : List Char) : Option (List Char) :=
  match findCh lbr cs, rfindCh rbr cs with
  | some i, some j => if i < j then some ((cs.take (j + 1)).drop i) else none
  | _, _ => none

/-- Strategy 1 of the recovery chain (line 267): newline, carriage return
and tab each become a space. -/
def mapNlTab (cs : List Char) : List Char :=
  cs.map (fun c => if c = '\n' || c = '\r' || c = '\t' then ' ' else c)

/-- Strategy 2 (line 270), embedding `re.sub` of comma, whitespace run,
closing delimiter replaced by the whitespace run and delimiter (the comma is
dropped, the captured group kept). -/
def commaWsClose : Nat → List Char → List Char
  | 0, cs => cs
  | _ + 1, [] => []
  | fuel + 1, c :: cs =>
    if c = cmm then
      let ws := cs.takeWhile pySpace
      let rest := cs.dropWhile pySpace
      match rest with
      | r :: rest2 =>
        if r = rbr || r = rbk then ws ++ r :: commaWsClose fuel rest2
        else c :: commaWsClose fuel cs
      | [] => c :: commaWsClose fuel cs
    else c :: commaWsClose fuel cs

/-- Strategy 3 (line 274), embedding the quote-fixing `re.sub`: a match is a
colon, a whitespace run, then four quotes delimiting three quote-free spans;
the replacement re-emits the match with a backslash inserted before the
third quote (the template escape produces a literal backslash-quote pair).
Scanning resumes after each match. -/
def quoteFix : Nat → List Char → List Char
  | 0, cs => cs
  | _ + 1, [] => []
  | fuel + 1, c :: cs =>
    if c = cln then
      let ws := cs.takeWhile pySpace
      let rest := cs.dropWhile pySpace
      match rest with
      | r :: rest2 =>
        if r = dq then
          match splitAtDq rest2 with
          | some (t1, r2) =>
            match splitAtDq r2 with
            | some (t2, r3) =>
              match splitAtDq r3 with
              | some (t3, r4) =>
                cln :: ws ++ dq :: t1 ++ dq :: t2 ++ bsl :: dq :: t3 ++ dq :: quoteFix fuel r4
              | none => c :: quoteFix fuel cs
            | none => c :: quoteFix fuel cs
          | none => c :: quoteFix fuel cs
        else c :: quoteFix fuel cs
      | [] => c :: quoteFix fuel cs
    else c :: quoteFix fuel cs

/-- Strategy 4 (lines 277-282): when the cleaned text does not start with an
open brace after stripping, cut it down to the span from the first open
brace to the last close brace, when that span is non-trivial. -/
def strategy4 (fixed : List Char) : List Char :=
  if (pyStripChars fixed).head? ≠ some lbr then
    match findCh lbr fixed, rfindCh rbr fixed with
    | some s, some e => if s < e then (fixed.take (e + 1)).drop s else fixed
    | _, _ => fixed
  else fixed

/-- Field matcher for the flashcard extraction pattern: the literal quoted
field name, whitespace-colon-whitespace, then a quoted quote-free group
(required non-empty for question and answer). -/
def matchField (name : List Char) (min1 : Bool) (cs : List Char) :
    Option (List Char × List Char) :=
  match dropLit (dq :: (name ++ [dq])) cs with
  | none => none
  | some r1 =>
    match (r1.dropWhile pySpace) with
    | c :: r3 =>
      if c = cln then
        match ((r3.dropWhile pySpace)) with
        | c2 :: r5 =>
          if c2 = dq then
            match splitAtDq r5 with
            | some (t, rest) => if min1 && t.isEmpty then none else some (t, rest)
            | none => none
          else none
        | [] => none
      else none
    | [] => none

/-- Greedy backtracking over a close-brace-free gap: try the longest gap
first, then shorter ones, and return the first remainder on which the
continuation succeeds. -/
def tryGapsAux {α : Type} (k : List Char → Option α) (cs : List Char) : Nat → Option α
  | 0 => k cs
  | n + 1 =>
    match k (cs.drop (n + 1)) with
    | some r => some r
    | none => tryGapsAux k cs n

/-- Run the continuation after a greedy close-brace-free gap, as the
anything-but-close-brace separators of the extraction pattern do. -/
def tryGaps {α : Type} (k : List Char → Option α) (cs : List Char) : Option α :=
  tryGapsAux k cs (cs.takeWhile (· ≠ rbr)).length

/-- One match of the flashcard extraction pattern of line 293, starting
exactly at the given position: the four quoted fields in order with
close-brace-free gaps between them, greedy with backtracking. -/
def matchFlashAt (cs : List Char) :
    Option ((List Char × List Char × List Char × List Char) × List Char) :=
  (matchField ("question".toList) true cs).bind (fun p1 =>
    tryGaps (fun g1 =>
      (matchField ("answer".toList) true g1).bind (fun p2 =>
        tryGaps (fun g2 =>
          (matchField ("category".toList) false g2).bind (fun p3 =>
            tryGaps (fun g3 =>
              (matchField ("difficulty".toList) false g3).map (fun p4 =>
                ((p1.1, p2.1, p3.1, p4.1), p4.2)))
              p3.2))
          p2.2))
      p1.2)

/-- Embedding of `re.findall` with the extraction pattern: leftmost
non-overlapping matches, scanning resuming after each match. -/
def findallFlash : Nat → List Char →
    List (List Char × List Char × List Char × List Char)
  | 0, _ => []
  | fuel + 1, cs =>
    match matchFlashAt cs with
    | some (g, rest) => g :: findallFlash fuel rest
    | none =>
      match cs with
      | [] => []
      | _ :: t => findallFlash fuel t

/-- Strategy 5 record rebuilding (lines 296-313): strip each captured group,
unescape quotes in question and answer, default blank category and
difficulty, tag as extracted. -/
def rebuildCard (m : List Char × List Char × List Char × List Char) : Json :=
  let unesc (t : List Char) : List Char :=
    replaceSub (bsl :: [dq]) [dq] (t.length + 1) (pyStripChars t)
  let cat := pyStripChars m.2.2.1
  let dif := pyStripChars m.2.2.2
  Json.obj
    [ (("question".toList), Json.str (unesc m.1))
    , (("answer".toList), Json.str (unesc m.2.1))
    , (("category".toList), Json.str (if cat.isEmpty then ("General").toList else cat))
    , (("difficulty".toList), Json.str (if dif.isEmpty then ("medium").toList else dif))
    , (("tags".toList), Json.arr [jstr ("extracted")]) ]

/-- The parse-and-recover chain of lines 257-320: strict parse of the
extracted span; on failure strategies 1 to 4 and a strict parse of the
cleaned text; on failure again, strategy 5 regex extraction over the
original span, giving `none` (the method returns the empty list) when no
record matches. -/
def flashTryChain (json_str : List Char) : Option Json :=
  match json_loads json_str with
  | some d => some d
  | none =>
    let s1 := mapNlTab json_str
    let s2 := commaWsClose (s1.length + 1) s1
    let s3 := quoteFix (s2.length + 1) s2
    let fixed := strategy4 s3
    match json_loads fixed with
    | some d => some d
    | none =>
      let ms := findallFlash (json_str.length + 1) json_str
      if ms.isEmpty then none
      else some (Json.obj [(("flashcards".toList), Json.arr (ms.map rebuildCard))])

/-- The synthesized card identifier `card_` followed by the index plus one,
zero-padded to three digits. -/
def cardId (i : Nat) : List Char :=
  let s := (Nat.repr (i + 1)).toList
  ("card_".toList) ++ List.replicate (3 - s.length) '0' ++ s

/-- The card assembly loop of lines 322-346: non-dict items are skipped; a
non-string question or answer raises out of the method (there is no inner
handler), embedded as `none`; cards with a blank question or answer are
dropped. -/
def flashLoop : Nat → List Json → Option (List Flashcard)
  | _, [] => some []
  | i, cd :: rest =>
    match cd with
    | .obj kvs =>
      match pyStrip (objGetD kvs ("question".toList) (jstr (""))) with
      | none => none
      | some q =>
        match pyStrip (objGetD kvs ("answer".toList) (jstr (""))) with
        | none => none
        | some a =>
          let card : Flashcard :=
            { id := cardId i
            , question := q
            , answer := a
            , category := objGetD kvs ("category".toList) (jstr ("General"))
            , difficulty := objGetD kvs ("difficulty".toList) (jstr ("medium"))
            , tags :=
                match objFind kvs ("tags".toList) with
                | some (.arr xs) => Json.arr xs
                | _ => Json.arr []
            , status := ("new").toList
            , review_count := 0
            , created_at := []
            , last_reviewed := [] }
          (flashLoop (i + 1) rest).map (fun cards =>
            if !q.isEmpty && !a.isEmpty then card :: cards else cards)
    | _ => flashLoop (i + 1) rest

/-- The response-parsing portion of `generate_flashcards`: no brace pair
found gives the empty list (line 350); an exhausted recovery chain gives the
empty list (lines 317, 320); an exception escaping the assembly loop is
caught by the outer handler, again the empty list (line 355). -/
def generate_flashcards_core (response : List Char) : List Flashcard :=
  match searchBracePair response with
  | none => []
  | some json_str =>
    match flashTryChain json_str with
    | none => []
    | some data =>
      match data with
      | .obj kvs =>
        match pyIter (objGetD kvs ("flashcards".toList) (Json.arr [])) with
        | none => []
        | some items =>
          match flashLoop 0 items with
          | none => []
          | some cards => cards
      | _ => []

/-! ## Quiz evaluation: `evaluate_quiz_results` and
`_generate_recommendations` (quiz_generator.py lines 400-458)

The Python score is a float division; it is modelled as an exact rational,
which agrees with the float on everything the theorems below assert (the
zero score of an empty quiz).  `list(set(...))` has an unspecified
iteration order in Python; it is modelled as duplicate removal, and no
theorem below depends on the resulting order. -/

structure QuizResult where
  score : Rat
  total_questions : Nat
  correct_answers : Nat
  weak_concepts : List Json
  strong_concepts : List Json
  recommendations : List (List Char)
deriving Repr, DecidableEq

/-- Extract the underlying strings when every element is a string value;
`none` embeds the `TypeError` that `str.join` raises otherwise. -/
def strVals : List Json → Option (List (List Char))
  | [] => some []
  | .str s :: rest => (strVals rest).map (fun ls => s :: ls)
  | _ :: _ => none

/-- Python comma-space `str.join` over a list of values. -/
def pyJoinComma (xs : List Json) : Option (List Char) :=
  (strVals xs).map (fun ls => List.intercalate ((", ").toList) ls)

/-- `_generate_recommendations` (lines 432-458); the join of the first
three weak concepts can raise on non-string elements, hence the `Option`. -/
def generate_recommendations (score : Rat) (weak_concepts strong_concepts : List Json) :
    Option (List (List Char)) :=
  if (9 : Rat) / 10 ≤ score then
    some
      [ ("🎉 Excellent work! You").toList ++ apo :: ("ve mastered this chapter.").toList
      , ("🚀 Ready for advanced topics in this area.").toList ]
  else if (7 : Rat) / 10 ≤ score then
    if !weak_concepts.isEmpty then
      (pyJoinComma (weak_concepts.take 3)).map (fun j =>
        [ ("👍 Good understanding! Minor review needed.").toList
        , ("📝 Review these concepts: ").toList ++ j ])
    else some [("👍 Good understanding! Minor review needed.").toList]
  else if (5 : Rat) / 10 ≤ score then
    (pyJoinComma (weak_concepts.take 3)).map (fun j =>
      [ ("📚 Partial understanding. More study recommended.").toList
      , ("🔍 Focus on: ").toList ++ j
      , ("💡 Try different learning approaches for difficult concepts.").toList ])
  else
    some
      [ ("🔄 Chapter review strongly recommended.").toList
      , ("👨‍🏫 Consider asking for help with core concepts.").toList
      , ("📖 Re-read the chapter and take notes.").toList ]

/-- The scoring loop of lines 411-416 over the zipped question and answer
pairs: a correct answer increments the count and extends the strong
concepts, a wrong one extends the weak concepts; extending with a
non-iterable concepts value raises, embedded as `none`. -/
def evalLoop : List (QuizQuestion × Int) → Nat → List Json → List Json →
    Option (Nat × List Json × List Json)
  | [], cc, weak, strong => some (cc, weak, strong)
  | (q, a) :: rest, cc, weak, strong =>
    match pyIter q.concepts with
    | none => none
    | some elems =>
      if a = q.correct_answer then evalLoop rest (cc + 1) weak (strong ++ elems)
      else evalLoop rest cc (weak ++ elems) strong

/-- `evaluate_quiz_results` (lines 400-430): zip truncates to the shorter
of the two lists, the score division is guarded by the emptiness test, the
recommendations are computed from the raw concept lists, and the result
carries the deduplicated concept lists. -/
def evaluate_quiz_results (questions : List QuizQuestion) (user_answers : List Int) :
    Option QuizResult :=
  match evalLoop (questions.zip user_answers) 0 [] [] with
  | none => none
  | some (cc, weak, strong) =>
    let score : Rat :=
      if !questions.isEmpty then (cc : Rat) / (questions.length : Rat) else 0
    match generate_recommendations score weak strong with
    | none => none
    | some recs =>
      some
        { score := score
        , total_questions := questions.length
        , correct_answers := cc
        , weak_concepts := weak.dedup
        , strong_concepts := strong.dedup
        , recommendations := recs }

/-- Whether every element of a list of values is a string value. -/
def allStr (xs : List Json) : Bool :=
  xs.all (fun x => match x with | .str _ => true | _ => false)

/-- Conformance of a question to the dataclass annotation of its concepts
field (a list of strings), the domain on which `evaluate_quiz_results` is
total. -/
def isStrList : Json → Bool
  | .arr xs => allStr xs
  | _ => false

/-- An arbitrary record, used only as the default value of `Option.getD`
in closed witness statements. -/
def defaultQuestion : QuizQuestion :=
  { id := Json.null
  , question := []
  , options := Json.null
  , correct_answer := 0
  , explanation := []
  , difficulty := Json.null
  , topic := Json.null
  , concepts := Json.null }

/-! ## Concrete test vectors used by the counterexample and witness
theorems -/

/-- A quiz payload of two records in which the second record is cut off
inside a string value: a mid-record truncation with exactly one complete
record before the cut. -/
def c4input : List Char :=
  ("\x7b\"questions\": [\x7b\"id\": \"q1\", \"question\": \"What is X?\", \"options\": [\"A\", \"B\"], \"correct_answer\": 0, \"explanation\": \"\", \"difficulty\": \"easy\", \"topic\": \"t\", \"concepts\": []\x7d, \x7b\"id\": \"q2\", \"question\": \"What is").toList

/-- Flashcard field markers for one record with no structural delimiter
anywhere. -/
def c5input : List Char :=
  ("\"question\": \"What is X?\", \"answer\": \"It is Y.\", \"category\": \"General\", \"difficulty\": \"easy\"").toList

/-- A well-formed single-record quiz payload whose correct answer index is
out of range for its two options. -/
def c6input : List Char :=
  ("\x7b\"questions\":[\x7b\"question\":\"Q?\",\"options\":[\"A\",\"B\"],\"correct_answer\":5\x7d]\x7d").toList

/-- A payload whose only close braces sit inside a string literal before
the real end of the object. -/
def c7input : List Char :=
  ("\x7b\"a\": \"\x7d\"\x7d").toList

/-- A two-record payload in which both records carry the same supplied
identifier. -/
def c8input : List Char :=
  ("\x7b\"questions\":[\x7b\"id\":\"dup\",\"question\":\"A?\",\"options\":[\"A\",\"B\"]\x7d,\x7b\"id\":\"dup\",\"question\":\"B?\",\"options\":[\"A\",\"B\"]\x7d]\x7d").toList

/-- A single-record payload whose difficulty value is outside the
documented enumeration. -/
def c9input : List Char :=
  ("\x7b\"questions\":[\x7b\"question\":\"Q?\",\"options\":[\"A\",\"B\"],\"difficulty\":\"extreme\"\x7d]\x7d").toList

/-! # Theorems -/

/-! ## Supporting lemmas -/

theorem fallback_ne_nil : generate_better_fallback_quiz ≠ [] := by
  simp [generate_better_fallback_quiz]

theorem findCh_eq_none_of_all_ne (ch : Char) :
    ∀ cs : List Char, cs.all (fun c => c != ch) = true → findCh ch cs = none := by
  intro cs h
  induction cs with
  | nil => rfl
  | cons c cs ih =>
    simp only [List.all_cons, Bool.and_eq_true, bne_iff_ne, ne_eq] at h
    simp [findCh, h.1, ih (by simpa using h.2)]

theorem parse_quiz_try_ok_nonempty {response : List Char} {qs : List QuizQuestion}
    (h : parse_quiz_try response = .ok qs) : qs ≠ [] := by
  unfold parse_quiz_try at h
  split at h
  · exact (Except.ok.inj h) ▸ fallback_ne_nil
  · dsimp only at h
    repeat' split at h
    all_goals first
      | (exact Except.noConfusion h)
      | (exact (Except.ok.inj h) ▸ fallback_ne_nil)
      | (rename_i hlen; exact (Except.ok.inj h) ▸ List.ne_nil_of_length_pos hlen)

/-! ## C1 -/

/-- C1: for every input text the quiz-parsing pipeline returns normally
(`parse_quiz_response` is a total function, with the outer handlers of
`_parse_quiz_response` embedded as the `Except` dispatch); when the input
contains no opening brace (empty input or pure prose), and likewise
whenever any stage lets an exception escape to the outer handlers, the
returned value is the fixed Fallback Library set. -/
theorem c1_never_raises_and_falls_back (response : List Char) :
    (response.all (fun c => c != lbr) = true →
      parse_quiz_response response = generate_better_fallback_quiz)
    ∧ (∀ e, parse_quiz_try response = .error e →
      parse_quiz_response response = generate_better_fallback_quiz) := by
  constructor
  · intro h
    unfold parse_quiz_response parse_quiz_try
    rw [findCh_eq_none_of_all_ne lbr response h]
  · intro e h
    unfold parse_quiz_response
    rw [h]

/-- Witness for C1 at the empty input and at a pure-prose input. -/
theorem c1_witness :
    parse_quiz_response ([]) = generate_better_fallback_quiz
    ∧ parse_quiz_response (("Sorry, I cannot help with that.").toList)
      = generate_better_fallback_quiz :=
  ⟨(c1_never_raises_and_falls_back ([])).1 (by decide),
   (c1_never_raises_and_falls_back (("Sorry, I cannot help with that.").toList)).1 (by decide)⟩

/-! ## C2 -/

/-- C2 counterexample: the flashcard shape violates the claim; on an input
with no structural payload, `generate_flashcards` returns the empty
collection. -/
theorem c2_flashcards_empty_counterexample :
    generate_flashcards_core (("hello").toList) = [] := by decide

/-- C2 (amended): the quiz pipeline's output is never empty; the flashcard
pipeline does not share the guarantee. -/
theorem c2_quiz_output_nonempty (response : List Char) :
    parse_quiz_response response ≠ [] := by
  unfold parse_quiz_response
  cases h : parse_quiz_try response with
  | error e => exact fallback_ne_nil
  | ok qs => exact parse_quiz_try_ok_nonempty h

/-! ## C3 -/

/-- C3 counterexample: the Sanitizer is not idempotent; on the three
characters comma, comma, close brace, the trailing-comma stage removes the
second comma and thereby exposes a new trailing comma that only a second
application removes. -/
theorem c3_sanitize_not_idempotent :
    sanitize (sanitize ((",,\x7d").toList)) ≠ sanitize ((",,\x7d").toList) := by decide

/-! ## C4 -/

/-- C4: on a payload of two records truncated inside the second record, the
Boundary Locator reports no balanced end, and the pipeline returns the
Fallback Library instead of the one complete record: the Repair Engine
appends its closing delimiters bracket-first with counts taken before any
truncation, so the repaired text never parses for a mid-record cut. -/
theorem c4_truncated_midrecord_falls_back :
    scanEnd c4input = none
    ∧ parse_quiz_response c4input = generate_better_fallback_quiz := by decide

/-! ## C5 -/

/-- C5 counterexample: an input carrying well-formed field markers for one
record but zero structural delimiters; the extraction pattern matches once,
yet the flashcard pipeline returns the empty collection and the quiz
pipeline returns the Fallback Library, because the Regex Fallback Extractor
only runs after a brace-delimited span was found. -/
theorem c5_no_delimiters_not_extracted :
    (findallFlash (c5input.length + 1) c5input).length = 1
    ∧ generate_flashcards_core c5input = []
    ∧ parse_quiz_response c5input = generate_better_fallback_quiz := by decide

/-! ## C6 -/

/-- C6 counterexample: a returned record whose correct-answer index five is
out of range for its two options: the Validator never checks the index
against the option count. -/
theorem c6_correct_answer_not_range_checked :
    (parse_quiz_response c6input).map (fun q => (q.correct_answer, pyLen q.options))
      = [(5, some 2)]
    ∧ ¬ ((5 : Int) < 2) := by decide

/-! ## C7 -/

/-- C7 counterexample: the Boundary Locator counts the close brace inside
the string literal of the test payload and ends the located span there
(length eight), where the string-aware locator described by the
specification would end it at the true close brace (length ten). -/
theorem c7_locator_counts_braces_in_strings :
    scanEnd c7input = some 8 ∧ scanEndSpec c7input = some 10 := by decide

/-! ## C8 -/

/-- C8 counterexample: two records supplying the same identifier are both
returned with it; identifiers are synthesized only for an absent id field,
never deduplicated. -/
theorem c8_duplicate_ids_returned :
    (parse_quiz_response c8input).map QuizQuestion.id = [jstr ("dup"), jstr ("dup")]
    ∧ ¬ ((parse_quiz_response c8input).map QuizQuestion.id).Nodup := by decide

/-! ## C9 -/

/-- C9 counterexample: a difficulty value outside the documented
enumeration is returned verbatim; the default applies only when the field
is absent. -/
theorem c9_invalid_difficulty_kept :
    (parse_quiz_response c9input).map QuizQuestion.difficulty = [jstr ("extreme")]
    ∧ jstr ("extreme") ∉ [jstr ("easy"), jstr ("medium"), jstr ("hard")] := by decide

/-! ## Shape of a validated record (shared by the amended C6, C8, C9) -/

theorem buildQuestion_some_shape {i : Nat} {kvs : List (List Char × Json)}
    {q : QuizQuestion} (h : buildQuestion i (Json.obj kvs) = some q) :
    (∃ n, pyLen (objGetD kvs (("options").toList) (Json.arr [])) = some n ∧ 2 ≤ n)
    ∧ q.id = objGetD kvs (("id").toList) (Json.str (qId i))
    ∧ q.options = objGetD kvs (("options").toList) (Json.arr [])
    ∧ q.difficulty = objGetD kvs (("difficulty").toList) (jstr ("medium"))
    ∧ q.topic = objGetD kvs (("topic").toList) (jstr ("general")) := by
  unfold buildQuestion at h
  dsimp only at h
  split at h
  next => exact Option.noConfusion h
  next =>
    split at h
    next => exact Option.noConfusion h
    next n hn =>
      split at h
      next => exact Option.noConfusion h
      next hlt =>
        split at h
        next => exact Option.noConfusion h
        next qS hq =>
          split at h
          next => exact Option.noConfusion h
          next ca hca =>
            split at h
            next => exact Option.noConfusion h
            next ex hex =>
              obtain rfl := Option.some.inj h
              exact ⟨⟨n, hn, by omega⟩, rfl, rfl, rfl, rfl⟩

theorem parse_quiz_try_ok_cases {response : List Char} {qs : List QuizQuestion}
    (h : parse_quiz_try response = .ok qs) :
    qs = generate_better_fallback_quiz ∨ ∃ items, qs = buildQuestions items := by
  unfold parse_quiz_try at h
  split at h
  · exact Or.inl (Except.ok.inj h).symm
  · dsimp only at h
    repeat' split at h
    all_goals first
      | (exact Except.noConfusion h)
      | (exact Or.inl (Except.ok.inj h).symm)
      | (rename_i items _ _; exact Or.inr ⟨items, (Except.ok.inj h).symm⟩)

theorem fallback_options_four :
    ∀ q ∈ generate_better_fallback_quiz, pyLen q.options = some 4 := by decide

theorem mem_parse_quiz_response_cases {response : List Char} {q : QuizQuestion}
    (h : q ∈ parse_quiz_response response) :
    q ∈ generate_better_fallback_quiz
    ∨ ∃ i v, buildQuestion i v = some q := by
  unfold parse_quiz_response at h
  generalize ht : parse_quiz_try response = t at h
  cases t with
  | error e => exact Or.inl h
  | ok qs =>
    rcases parse_quiz_try_ok_cases ht with rfl | ⟨items, rfl⟩
    · exact Or.inl h
    · unfold buildQuestions at h
      rcases List.mem_filterMap.mp h with ⟨p, _, hp⟩
      exact Or.inr ⟨p.1, p.2, hp⟩

/-- C6 (amended): every record the pipeline returns has an options value of
length at least two (the only structural field constraint the Validator
enforces); the correct-answer index is not range-checked against it and the
option entries are not checked non-empty, as the C6 counterexample shows. -/
theorem c6_every_record_two_options (response : List Char) (q : QuizQuestion)
    (h : q ∈ parse_quiz_response response) :
    ∃ n, pyLen q.options = some n ∧ 2 ≤ n := by
  rcases mem_parse_quiz_response_cases h with hf | ⟨i, v, hb⟩
  · exact ⟨4, fallback_options_four q hf, by omega⟩
  · cases v with
    | obj kvs =>
      rcases buildQuestion_some_shape hb with ⟨⟨n, hn, h2⟩, _, hopt, _, _⟩
      exact ⟨n, hopt ▸ hn, h2⟩
    | null => exact absurd hb (by simp [buildQuestion])
    | bool b => exact absurd hb (by simp [buildQuestion])
    | num n => exact absurd hb (by simp [buildQuestion])
    | str s => exact absurd hb (by simp [buildQuestion])
    | arr xs => exact absurd hb (by simp [buildQuestion])

/-- Witness for C6 at the out-of-range input: its single returned record
still has two options. -/
theorem c6_witness :
    ∃ n, pyLen ((parse_quiz_response c6input).getD 0 defaultQuestion).options = some n ∧ 2 ≤ n :=
  c6_every_record_two_options c6input ((parse_quiz_response c6input).getD 0 defaultQuestion)
    (by decide)

/-! ## C5 (amended) -/

/-- C5 (amended): on input with zero structural delimiters the Regex
Fallback Extractor never runs; the flashcard pipeline returns the empty
collection (its extractor is only reached after a brace-delimited span is
found and strict parsing fails) and the quiz pipeline returns the Fallback
Library immediately. -/
theorem c5_no_delimiters_skips_extractor (response : List Char)
    (h : response.all (fun c => c != lbr) = true) :
    generate_flashcards_core response = []
    ∧ parse_quiz_response response = generate_better_fallback_quiz := by
  have hf : findCh lbr response = none := findCh_eq_none_of_all_ne lbr response h
  constructor
  · unfold generate_flashcards_core searchBracePair
    rw [hf]
  · unfold parse_quiz_response parse_quiz_try
    rw [hf]

/-- Witness for C5 at the marker-bearing, delimiter-free input. -/
theorem c5_witness :
    generate_flashcards_core c5input = []
    ∧ parse_quiz_response c5input = generate_better_fallback_quiz :=
  c5_no_delimiters_skips_extractor c5input (by decide)

/-! ## C7 (amended) -/

/-- C7 (amended): quote-and-escape tracking lives only in the Repair
Engine's completion walk, not in the Boundary Locator (which counts every
brace, as the C7 counterexample shows): in the walk, a backslash-escaped
quote appended to any text whose walk ends with the escape flag clear
leaves the in-string state unchanged. -/
theorem c7_repair_walk_escape_aware (cs : List Char)
    (h : (walkState cs).2 = false) :
    (walkState (cs ++ [bsl, dq])).1 = (walkState cs).1 := by
  unfold walkState
  rw [List.foldl_append]
  unfold walkState at h
  simp [stepStr, h]

/-- Witness for C7 at a one-quote prefix: the escaped quote does not close
the open string. -/
theorem c7_witness : (walkState ([dq] ++ [bsl, dq])).1 = (walkState [dq]).1 :=
  c7_repair_walk_escape_aware [dq] (by decide)

/-! ## C8 (amended) -/

/-- C8 (amended): a record that omits its identifier receives the
synthesized sequential identifier for its position, and a supplied
identifier is kept verbatim, duplicates included, so the returned
identifiers need not be pairwise distinct (C8 counterexample). -/
theorem c8_id_synthesized_only_when_absent (i : Nat)
    (kvs : List (List Char × Json)) (q : QuizQuestion)
    (h : buildQuestion i (Json.obj kvs) = some q) :
    (objFind kvs (("id").toList) = none → q.id = Json.str (qId i))
    ∧ (∀ v, objFind kvs (("id").toList) = some v → q.id = v) := by
  rcases buildQuestion_some_shape h with ⟨_, hid, _, _, _⟩
  constructor
  · intro hnone
    rw [hid]
    unfold objGetD
    rw [hnone]
  · intro v hv
    rw [hid]
    unfold objGetD
    rw [hv]

/-- Witness for C8: at a record with no id field at position zero, the
synthesized identifier is letter q followed by one. -/
theorem c8_witness :
    ((buildQuestion 0 (Json.obj
        [ (("question").toList, jstr ("Q?"))
        , (("options").toList, jlist ["A", "B"]) ])).getD defaultQuestion).id
      = Json.str (qId 0) :=
  (c8_id_synthesized_only_when_absent 0
    [ (("question").toList, jstr ("Q?")), (("options").toList, jlist ["A", "B"]) ]
    ((buildQuestion 0 (Json.obj
        [ (("question").toList, jstr ("Q?"))
        , (("options").toList, jlist ["A", "B"]) ])).getD defaultQuestion)
    (by decide)).1 (by decide)

/-! ## C9 (amended) -/

/-- C9 (amended): the difficulty field defaults to medium only when the
source record omits it; any supplied value, inside or outside the
easy-medium-hard enumeration, is kept verbatim (C9 counterexample). -/
theorem c9_difficulty_default_only_when_absent (i : Nat)
    (kvs : List (List Char × Json)) (q : QuizQuestion)
    (h : buildQuestion i (Json.obj kvs) = some q) :
    (objFind kvs (("difficulty").toList) = none → q.difficulty = jstr ("medium"))
    ∧ (∀ v, objFind kvs (("difficulty").toList) = some v → q.difficulty = v) := by
  rcases buildQuestion_some_shape h with ⟨_, _, _, hdif, _⟩
  constructor
  · intro hnone
    rw [hdif]
    unfold objGetD
    rw [hnone]
  · intro v hv
    rw [hdif]
    unfold objGetD
    rw [hv]

/-! ## C10 -/

theorem strVals_total (xs : List Json) (h : allStr xs = true) :
    ∃ ls, strVals xs = some ls := by
  induction xs with
  | nil => exact ⟨[], rfl⟩
  | cons x rest ih =>
    rw [allStr, List.all_cons, Bool.and_eq_true] at h
    obtain ⟨hx, hrest⟩ := h
    obtain ⟨ls, hls⟩ := ih (by rw [allStr]; exact hrest)
    cases x with
    | str s => exact ⟨s :: ls, by simp [strVals, hls]⟩
    | null => exact absurd hx (by simp)
    | bool b => exact absurd hx (by simp)
    | num n => exact absurd hx (by simp)
    | arr a => exact absurd hx (by simp)
    | obj o => exact absurd hx (by simp)

theorem allStr_take (xs : List Json) (n : Nat) (h : allStr xs = true) :
    allStr (xs.take n) = true := by
  rw [allStr, List.all_eq_true] at *
  exact fun x hx => h x (List.mem_of_mem_take hx)

theorem allStr_append (a b : List Json) (ha : allStr a = true) (hb : allStr b = true) :
    allStr (a ++ b) = true := by
  rw [allStr] at ha hb ⊢
  rw [List.all_append, ha, hb]
  rfl

theorem generate_recommendations_total (score : Rat) (weak strong : List Json)
    (hw : allStr weak = true) :
    ∃ recs, generate_recommendations score weak strong = some recs := by
  obtain ⟨ls, hls⟩ := strVals_total (weak.take 3) (allStr_take weak 3 hw)
  unfold generate_recommendations pyJoinComma
  rw [hls]
  split
  · exact ⟨_, rfl⟩
  · split
    · split
      · exact ⟨_, rfl⟩
      · exact ⟨_, rfl⟩
    · split
      · exact ⟨_, rfl⟩
      · exact ⟨_, rfl⟩

theorem evalLoop_total (pairs : List (QuizQuestion × Int)) (cc0 : Nat) (w0 s0 : List Json)
    (hp : ∀ p ∈ pairs, isStrList p.1.concepts = true)
    (hw0 : allStr w0 = true) (hs0 : allStr s0 = true) :
    ∃ cc w s, evalLoop pairs cc0 w0 s0 = some (cc, w, s)
      ∧ allStr w = true ∧ allStr s = true := by
  induction pairs generalizing cc0 w0 s0 with
  | nil => exact ⟨cc0, w0, s0, rfl, hw0, hs0⟩
  | cons p rest ih =>
    obtain ⟨q, a⟩ := p
    have hq : isStrList q.concepts = true := hp (q, a) (List.mem_cons_self _ _)
    have hrest : ∀ p2 ∈ rest, isStrList p2.1.concepts = true :=
      fun p2 hp2 => hp p2 (List.mem_cons_of_mem _ hp2)
    cases hc : q.concepts with
    | arr xs =>
      have hxs : allStr xs = true := by rw [hc] at hq; simpa [isStrList] using hq
      rw [evalLoop, hc]
      dsimp only [pyIter]
      by_cases hca : a = q.correct_answer
      · rw [if_pos hca]
        exact ih (cc0 + 1) w0 (s0 ++ xs) hrest hw0 (allStr_append s0 xs hs0 hxs)
      · rw [if_neg hca]
        exact ih cc0 (w0 ++ xs) s0 hrest (allStr_append w0 xs hw0 hxs) hs0
    | null => rw [hc] at hq; exact absurd hq (by simp [isStrList])
    | bool b => rw [hc] at hq; exact absurd hq (by simp [isStrList])
    | num n => rw [hc] at hq; exact absurd hq (by simp [isStrList])
    | str st => rw [hc] at hq; exact absurd hq (by simp [isStrList])
    | obj o => rw [hc] at hq; exact absurd hq (by simp [isStrList])

theorem evaluate_some (questions : List QuizQuestion) (user_answers : List Int)
    (h : ∀ q ∈ questions, isStrList q.concepts = true) :
    ∃ cc w s recs,
      evalLoop (questions.zip user_answers) 0 [] [] = some (cc, w, s)
      ∧ evaluate_quiz_results questions user_answers = some
        { score := if !questions.isEmpty then (cc : Rat) / (questions.length : Rat) else 0
        , total_questions := questions.length
        , correct_answers := cc
        , weak_concepts := w.dedup
        , strong_concepts := s.dedup
        , recommendations := recs } := by
  have hzl : ∀ p ∈ questions.zip user_answers, isStrList p.1.concepts = true :=
    fun p hp => h p.1 (List.of_mem_zip hp).1
  obtain ⟨cc, w, s, hloop, hw, _⟩ := evalLoop_total (questions.zip user_answers) 0 [] [] hzl rfl rfl
  obtain ⟨recs, hrecs⟩ := generate_recommendations_total
    (if !questions.isEmpty then (cc : Rat) / (questions.length : Rat) else 0) w s hw
  refine ⟨cc, w, s, recs, hloop, ?_⟩
  unfold evaluate_quiz_results
  rw [hloop]
  dsimp only
  rw [hrecs]

theorem zip_take_right {α β : Type} (l1 : List α) (l2 : List β) :
    l1.zip (l2.take l1.length) = l1.zip l2 := by
  induction l1 generalizing l2 with
  | nil => simp
  | cons a l1 ih =>
    cases l2 with
    | nil => simp
    | cons b l2 => simp [ih]

theorem zip_take_left {α β : Type} (l1 : List α) (l2 : List β) :
    (l1.take l2.length).zip l2 = l1.zip l2 := by
  induction l1 generalizing l2 with
  | nil => simp
  | cons a l1 ih =>
    cases l2 with
    | nil => simp
    | cons b l2 => simp [ih]

/-- C10: on questions conforming to the dataclass annotation of the
concepts field, `evaluate_quiz_results` returns normally; the returned
total is always the question count, the score of an empty quiz is the
guarded zero, answers beyond the question count change nothing, and
questions beyond the answer count contribute nothing to the correct count
or the weak and strong concept lists (only the total and score see them). -/
theorem c10_evaluate_returns_normally (questions : List QuizQuestion)
    (user_answers : List Int)
    (h : ∀ q ∈ questions, isStrList q.concepts = true) :
    ∃ r, evaluate_quiz_results questions user_answers = some r
      ∧ r.total_questions = questions.length
      ∧ (questions = [] → r.score = 0)
      ∧ evaluate_quiz_results questions (user_answers.take questions.length) = some r
      ∧ (evaluate_quiz_results (questions.take user_answers.length) user_answers).map
          (fun r2 => (r2.correct_answers, r2.weak_concepts, r2.strong_concepts))
        = some (r.correct_answers, r.weak_concepts, r.strong_concepts) := by
  obtain ⟨cc, w, s, recs, hloop, heval⟩ := evaluate_some questions user_answers h
  refine ⟨_, heval, rfl, ?_, ?_, ?_⟩
  · intro hq
    subst hq
    simp
  · have hsame : evaluate_quiz_results questions (user_answers.take questions.length)
        = evaluate_quiz_results questions user_answers := by
      unfold evaluate_quiz_results
      rw [zip_take_right]
    rw [hsame, heval]
  · have h2 : ∀ q ∈ questions.take user_answers.length, isStrList q.concepts = true :=
      fun q hq => h q (List.mem_of_mem_take hq)
    obtain ⟨cc2, w2, s2, recs2, hloop2, heval2⟩ :=
      evaluate_some (questions.take user_answers.length) user_answers h2
    rw [zip_take_left, hloop] at hloop2
    obtain ⟨hcc, hws⟩ := Prod.mk.inj (Option.some.inj hloop2)
    obtain ⟨hw2, hs2⟩ := Prod.mk.inj hws
    subst hcc
    subst hw2
    subst hs2
    rw [heval2]
    rfl

/-- Witness for C10 at the Fallback Library questions and a single answer. -/
theorem c10_witness :
    ∃ r, evaluate_quiz_results generate_better_fallback_quiz [0] = some r
      ∧ r.total_questions = generate_better_fallback_quiz.length
      ∧ (generate_better_fallback_quiz = [] → r.score = 0)
      ∧ evaluate_quiz_results generate_better_fallback_quiz
          ([0].take generate_better_fallback_quiz.length) = some r
      ∧ (evaluate_quiz_results (generate_better_fallback_quiz.take ([0] : List Int).length)
          [0]).map (fun r2 => (r2.correct_answers, r2.weak_concepts, r2.strong_concepts))
        = some (r.correct_answers, r.weak_concepts, r.strong_concepts) :=
  c10_evaluate_returns_normally generate_better_fallback_quiz [0] (by decide)

/-! ## C3 (amended): Sanitizer idempotence on comma-free input

The obstruction to idempotence is the trailing-comma stage alone (see the
C3 counterexample); on input without commas every stage of a second
application is the identity.  The lemmas below establish, stage by stage,
that the first application's output contains no comma, no unmatchable
angle pair, no replaced symbol and no smart quote. -/

theorem all_mono {p q : Char → Bool} (h : ∀ c, p c = true → q c = true) :
    ∀ {cs : List Char}, cs.all p = true → cs.all q = true := by
  intro cs hc
  rw [List.all_eq_true] at *
  exact fun x hx => h x (hc x hx)

theorem sublist_all {p : Char → Bool} {t u : List Char} (hsub : t.Sublist u)
    (h : u.all p = true) : t.all p = true := by
  rw [List.all_eq_true] at *
  exact fun x hx => h x (hsub.subset hx)

theorem splitAtGt_eq : ∀ (cs b a : List Char),
    splitAtGt cs = some (b, a) → cs = b ++ gtc :: a := by
  intro cs
  induction cs with
  | nil => intro b a h; exact absurd h (by simp [splitAtGt])
  | cons c cs ih =>
    intro b a h
    rw [splitAtGt] at h
    split at h
    · next hc =>
      obtain ⟨hb, ha⟩ := Prod.mk.inj (Option.some.inj h)
      subst hb
      subst ha
      rw [hc]
      rfl
    · next hc =>
      cases hsp : splitAtGt cs with
      | none => rw [hsp] at h; exact absurd h (by simp)
      | some p =>
        obtain ⟨p1, p2⟩ := p
        rw [hsp] at h
        obtain ⟨hb, ha⟩ := Prod.mk.inj (Option.some.inj h)
        subst hb
        subst ha
        rw [List.cons_append, ← ih p1 p2 hsp]

theorem splitAtGt_none_iff (cs : List Char) :
    splitAtGt cs = none ↔ cs.all (fun c => c != gtc) = true := by
  induction cs with
  | nil => simp [splitAtGt]
  | cons c cs ih =>
    rw [splitAtGt, List.all_cons]
    by_cases hc : c = gtc
    · simp [hc]
    · rw [if_neg hc]
      have hb : (c != gtc) = true := by simp [hc]
      rw [hb, Bool.true_and, ← ih]
      cases hsp : splitAtGt cs with
      | none => simp
      | some p => simp

theorem removeTags_sublist : ∀ (fuel : Nat) (cs : List Char),
    (removeTags fuel cs).Sublist cs := by
  intro fuel
  induction fuel with
  | zero => intro cs; exact List.Sublist.refl cs
  | succ fuel ih =>
    intro cs
    cases cs with
    | nil => exact List.Sublist.refl []
    | cons c cs =>
      rw [removeTags]
      by_cases hc : c = ltc
      · rw [if_pos hc]
        cases hsp : splitAtGt cs with
        | none => exact List.cons_sublist_cons.mpr (ih cs)
        | some p =>
          obtain ⟨b, a⟩ := p
          dsimp only
          by_cases hb : b.isEmpty
          · rw [if_pos hb]
            exact List.cons_sublist_cons.mpr (ih cs)
          · rw [if_neg hb]
            have ha : a.Sublist cs := by
              rw [splitAtGt_eq cs b a hsp]
              exact ((List.sublist_cons_self gtc a).trans (List.sublist_append_right b (gtc :: a)))
            exact ((ih a).trans ha).trans (List.sublist_cons_self c cs)
      · rw [if_neg hc]
        exact List.cons_sublist_cons.mpr (ih cs)

theorem commaClose_sublist : ∀ (close : Char) (fuel : Nat) (cs : List Char),
    (commaClose close fuel cs).Sublist cs := by
  intro close fuel
  induction fuel with
  | zero => intro cs; exact List.Sublist.refl cs
  | succ fuel ih =>
    intro cs
    cases cs with
    | nil => exact List.Sublist.refl []
    | cons c cs =>
      rw [commaClose]
      by_cases hc : c = cmm
      · rw [if_pos hc]
        dsimp only
        cases hr : cs.dropWhile pySpace with
        | nil => exact List.cons_sublist_cons.mpr (ih cs)
        | cons r rest2 =>
          dsimp only
          by_cases hcl : r = close
          · rw [if_pos hcl]
            have hdrop : (r :: rest2).Sublist cs := by
              rw [← hr]
              exact List.dropWhile_sublist _
            have : (close :: commaClose close fuel rest2).Sublist (r :: rest2) := by
              rw [hcl] at *
              exact List.cons_sublist_cons.mpr (ih rest2)
            exact (this.trans hdrop).trans (List.sublist_cons_self c cs)
          · rw [if_neg hcl]
            exact List.cons_sublist_cons.mpr (ih cs)
      · rw [if_neg hc]
        exact List.cons_sublist_cons.mpr (ih cs)

theorem replCh_step {p q : Char → Bool} (pat : Char) (rep cs : List Char)
    (hcs : cs.all p = true) (hrep : rep.all q = true)
    (himp : ∀ c, p c = true → c ≠ pat → q c = true) :
    (replCh pat rep cs).all q = true := by
  rw [replCh]
  rw [List.all_eq_true] at hcs hrep ⊢
  intro x hx
  rw [List.mem_flatMap] at hx
  obtain ⟨c, hc, hxc⟩ := hx
  by_cases hcp : c = pat
  · rw [if_pos hcp] at hxc
    exact hrep x hxc
  · rw [if_neg hcp] at hxc
    rw [List.mem_singleton] at hxc
    subst hxc
    exact himp x (hcs x hc) hcp

theorem replCh_eq_self (pat : Char) (rep : List Char) :
    ∀ (cs : List Char), cs.all (fun c => c != pat) = true → replCh pat rep cs = cs := by
  intro cs h
  induction cs with
  | nil => rfl
  | cons c cs ih =>
    rw [List.all_cons, Bool.and_eq_true] at h
    have hc : ¬ c = pat := by simpa using h.1
    rw [replCh, List.flatMap_cons, if_neg hc, List.singleton_append]
    rw [show cs.flatMap (fun c => if c = pat then rep else [c]) = replCh pat rep cs from rfl]
    rw [ih h.2]

theorem angleSub_eq_self_of_no_gtc : ∀ (fuel : Nat) (cs : List Char),
    cs.all (fun c => c != gtc) = true → angleSub fuel cs = cs := by
  intro fuel
  induction fuel with
  | zero => intro cs _; rfl
  | succ fuel ih =>
    intro cs h
    cases cs with
    | nil => rfl
    | cons c cs =>
      rw [List.all_cons, Bool.and_eq_true] at h
      rw [angleSub]
      by_cases hc : c = ltc
      · rw [if_pos hc, (splitAtGt_none_iff cs).mpr h.2]
        rw [ih cs h.2]
      · rw [if_neg hc, ih cs h.2]

theorem removeTags_eq_self_of_no_gtc : ∀ (fuel : Nat) (cs : List Char),
    cs.all (fun c => c != gtc) = true → removeTags fuel cs = cs := by
  intro fuel
  induction fuel with
  | zero => intro cs _; rfl
  | succ fuel ih =>
    intro cs h
    cases cs with
    | nil => rfl
    | cons c cs =>
      rw [List.all_cons, Bool.and_eq_true] at h
      rw [removeTags]
      by_cases hc : c = ltc
      · rw [if_pos hc, (splitAtGt_none_iff cs).mpr h.2]
        rw [ih cs h.2]
      · rw [if_neg hc, ih cs h.2]

theorem all_ne_gtc_noAngle {cs : List Char}
    (h : cs.all (fun c => c != gtc) = true) : noAngle cs = true := by
  rw [noAngle]
  exact sublist_all (List.dropWhile_sublist _) h

theorem noAngle_cons_ltc (cs : List Char) :
    noAngle (ltc :: cs) = cs.all (fun c => c != gtc) := by
  have h1 : List.dropWhile (fun c => c != ltc) (ltc :: cs) = ltc :: cs := by
    rw [List.dropWhile_cons]
    simp
  rw [noAngle, h1, List.all_cons]
  rw [show (ltc != gtc) = true from by decide, Bool.true_and]

theorem noAngle_cons_ne {c : Char} (cs : List Char) (hc : c ≠ ltc) :
    noAngle (c :: cs) = noAngle cs := by
  rw [noAngle, noAngle, List.dropWhile_cons]
  rw [if_pos (by simpa using hc)]

theorem noAngle_of_cons {a : Char} {cs : List Char} (h : noAngle (a :: cs) = true) :
    noAngle cs = true := by
  by_cases ha : a = ltc
  · subst ha
    rw [noAngle_cons_ltc] at h
    exact all_ne_gtc_noAngle h
  · rw [noAngle_cons_ne cs ha] at h
    exact h

theorem noAngle_sublist : ∀ {t u : List Char}, t.Sublist u →
    noAngle u = true → noAngle t = true := by
  intro t u hsub
  induction hsub with
  | slnil => exact fun h => h
  | cons a _ ih => exact fun h => ih (noAngle_of_cons h)
  | cons₂ a hsub2 ih =>
    intro h
    by_cases ha : a = ltc
    · subst ha
      rw [noAngle_cons_ltc] at h ⊢
      exact sublist_all hsub2 h
    · rw [noAngle_cons_ne _ ha] at h ⊢
      exact ih h

theorem angleSub_all {p : Char → Bool} (hp1 : p '(' = true) (hp2 : p bsl = true)
    (hp3 : p '1' = true) (hp4 : p ')' = true) :
    ∀ (fuel : Nat) (cs : List Char), cs.all p = true → (angleSub fuel cs).all p = true := by
  intro fuel
  induction fuel with
  | zero => exact fun cs h => h
  | succ fuel ih =>
    intro cs h
    cases cs with
    | nil => exact h
    | cons c cs =>
      rw [List.all_cons, Bool.and_eq_true] at h
      rw [angleSub]
      by_cases hc : c = ltc
      · rw [if_pos hc]
        cases hsp : splitAtGt cs with
        | none =>
          rw [List.all_cons, Bool.and_eq_true]
          exact ⟨h.1, ih cs h.2⟩
        | some pr =>
          obtain ⟨b, a⟩ := pr
          dsimp only
          have ha : a.all p = true := by
            have heq := splitAtGt_eq cs b a hsp
            have h2 := h.2
            rw [heq, List.all_append, Bool.and_eq_true, List.all_cons, Bool.and_eq_true] at h2
            exact h2.2.2
          simp only [List.all_cons, Bool.and_eq_true]
          exact ⟨hp1, hp2, hp3, hp4, ih a ha⟩
      · rw [if_neg hc]
        rw [List.all_cons, Bool.and_eq_true]
        exact ⟨h.1, ih cs h.2⟩

theorem angleSub_noAngle : ∀ (fuel : Nat) (cs : List Char), cs.length < fuel →
    noAngle (angleSub fuel cs) = true := by
  intro fuel
  induction fuel with
  | zero => exact fun cs h => absurd h (Nat.not_lt_zero _)
  | succ fuel ih =>
    intro cs hlen
    cases cs with
    | nil => rfl
    | cons c cs =>
      rw [angleSub]
      by_cases hc : c = ltc
      · rw [if_pos hc]
        cases hsp : splitAtGt cs with
        | none =>
          have hfree := (splitAtGt_none_iff cs).mp hsp
          rw [angleSub_eq_self_of_no_gtc fuel cs hfree]
          rw [hc, noAngle_cons_ltc]
          exact hfree
        | some pr =>
          obtain ⟨b, a⟩ := pr
          dsimp only
          have hlt : a.length < fuel := by
            have heq := splitAtGt_eq cs b a hsp
            have h2 : cs.length = b.length + (a.length + 1) := by
              rw [heq, List.length_append, List.length_cons]
            rw [List.length_cons] at hlen
            omega
          rw [noAngle_cons_ne _ (by decide), noAngle_cons_ne _ (by decide),
            noAngle_cons_ne _ (by decide), noAngle_cons_ne _ (by decide)]
          exact ih a hlt
      · rw [if_neg hc]
        rw [noAngle_cons_ne _ hc]
        rw [List.length_cons] at hlen
        exact ih cs (by omega)

theorem angleSub_eq_self_of_noAngle : ∀ (fuel : Nat) (cs : List Char),
    noAngle cs = true → angleSub fuel cs = cs := by
  intro fuel
  induction fuel with
  | zero => intro cs _; rfl
  | succ fuel ih =>
    intro cs h
    cases cs with
    | nil => rfl
    | cons c cs =>
      rw [angleSub]
      by_cases hc : c = ltc
      · subst hc
        rw [noAngle_cons_ltc] at h
        rw [if_pos rfl, (splitAtGt_none_iff cs).mpr h]
        rw [angleSub_eq_self_of_no_gtc fuel cs h]
      · rw [if_neg hc, ih cs (by rw [noAngle_cons_ne cs hc] at h; exact h)]

theorem removeTags_eq_self_of_noAngle : ∀ (fuel : Nat) (cs : List Char),
    noAngle cs = true → removeTags fuel cs = cs := by
  intro fuel
  induction fuel with
  | zero => intro cs _; rfl
  | succ fuel ih =>
    intro cs h
    cases cs with
    | nil => rfl
    | cons c cs =>
      rw [removeTags]
      by_cases hc : c = ltc
      · subst hc
        rw [noAngle_cons_ltc] at h
        rw [if_pos rfl, (splitAtGt_none_iff cs).mpr h]
        rw [removeTags_eq_self_of_no_gtc fuel cs h]
      · rw [if_neg hc, ih cs (by rw [noAngle_cons_ne cs hc] at h; exact h)]

theorem commaClose_eq_self : ∀ (close : Char) (fuel : Nat) (cs : List Char),
    cs.all (fun c => c != cmm) = true → commaClose close fuel cs = cs := by
  intro close fuel
  induction fuel with
  | zero => intro cs _; rfl
  | succ fuel ih =>
    intro cs h
    cases cs with
    | nil => rfl
    | cons c cs =>
      rw [List.all_cons, Bool.and_eq_true] at h
      have hc : ¬ c = cmm := by simpa using h.1
      rw [commaClose, if_neg hc, ih cs h.2]

theorem replCh_self (pat : Char) : ∀ cs : List Char, replCh pat [pat] cs = cs := by
  intro cs
  induction cs with
  | nil => rfl
  | cons c cs ih =>
    rw [replCh, List.flatMap_cons]
    rw [show cs.flatMap (fun c => if c = pat then [pat] else [c]) = replCh pat [pat] cs from rfl]
    rw [ih]
    by_cases hc : c = pat
    · rw [if_pos hc, hc]
      rfl
    · rw [if_neg hc]
      rfl

theorem replaceSub_eq_self (c0 : Char) (rest rep : List Char) :
    ∀ (fuel : Nat) (cs : List Char), cs.all (fun c => c != c0) = true →
      replaceSub (c0 :: rest) rep fuel cs = cs := by
  intro fuel
  induction fuel with
  | zero => intro cs _; rfl
  | succ fuel ih =>
    intro cs h
    cases cs with
    | nil => rfl
    | cons c cs =>
      rw [List.all_cons, Bool.and_eq_true] at h
      have hne : ¬ (c0 = c) := fun hh => (by simpa using h.1 : c ≠ c0) hh.symm
      have hlm : leadMatch (c0 :: rest) (c :: cs) = false := by
        rw [leadMatch]
        simp [hne]
      rw [replaceSub, hlm]
      rw [if_neg Bool.false_ne_true]
      rw [ih cs h.2]

theorem symbolReplace_all {p : Char → Bool}
    (h1 : ((">=").toList).all p = true) (h2 : (("<=").toList).all p = true)
    (h3 : (("infinity").toList).all p = true) (h4 : (("in").toList).all p = true)
    (h5 : (("for all").toList).all p = true) (h6 : (("there exists").toList).all p = true)
    {cs : List Char} (h : cs.all p = true) : (symbolReplace cs).all p = true := by
  unfold symbolReplace
  exact replCh_step _ _ _
    (replCh_step _ _ _
      (replCh_step _ _ _
        (replCh_step _ _ _
          (replCh_step _ _ _
            (replCh_step _ _ _ h h1 (fun c hc _ => hc))
            h2 (fun c hc _ => hc))
          h3 (fun c hc _ => hc))
        h4 (fun c hc _ => hc))
      h5 (fun c hc _ => hc))
    h6 (fun c hc _ => hc)

theorem symbolReplace_noSym (cs : List Char) : (symbolReplace cs).all noSym = true := by
  unfold symbolReplace
  have h0 : cs.all (fun _ => true) = true := by
    rw [List.all_eq_true]
    exact fun _ _ => rfl
  have hh1 : (replCh geSym ((">=").toList) cs).all
      (fun c => c != geSym) = true :=
    replCh_step _ _ _ h0 (by decide) (fun c _ hne => by simpa using hne)
  have hh2 : (replCh leSym (("<=").toList)
      (replCh geSym ((">=").toList) cs)).all
      (fun c => (c != geSym) && (c != leSym)) = true :=
    replCh_step _ _ _ hh1 (by decide) (fun c hc hne => by
      simp only [Bool.and_eq_true, bne_iff_ne, ne_eq] at *
      exact ⟨hc, hne⟩)
  have hh3 : (replCh infSym (("infinity").toList) (replCh leSym (("<=").toList)
      (replCh geSym ((">=").toList) cs))).all
      (fun c => (c != geSym) && (c != leSym) && (c != infSym)) = true :=
    replCh_step _ _ _ hh2 (by decide) (fun c hc hne => by
      simp only [Bool.and_eq_true, bne_iff_ne, ne_eq] at *
      exact ⟨hc, hne⟩)
  have hh4 : (replCh elemSym (("in").toList) (replCh infSym (("infinity").toList)
      (replCh leSym (("<=").toList) (replCh geSym ((">=").toList) cs)))).all
      (fun c => (c != geSym) && (c != leSym) && (c != infSym) && (c != elemSym)) = true :=
    replCh_step _ _ _ hh3 (by decide) (fun c hc hne => by
      simp only [Bool.and_eq_true, bne_iff_ne, ne_eq] at *
      exact ⟨hc, hne⟩)
  have hh5 : (replCh forallSym (("for all").toList) (replCh elemSym (("in").toList)
      (replCh infSym (("infinity").toList) (replCh leSym (("<=").toList)
      (replCh geSym ((">=").toList) cs))))).all
      (fun c => (c != geSym) && (c != leSym) && (c != infSym) && (c != elemSym)
        && (c != forallSym)) = true :=
    replCh_step _ _ _ hh4 (by decide) (fun c hc hne => by
      simp only [Bool.and_eq_true, bne_iff_ne, ne_eq] at *
      exact ⟨hc, hne⟩)
  exact replCh_step _ _ _ hh5 (by decide) (fun c hc hne => by
    simp only [noSym, Bool.and_eq_true, bne_iff_ne, ne_eq] at *
    exact ⟨hc, hne⟩)

theorem symbolReplace_eq_self {cs : List Char} (h : cs.all noSym = true) :
    symbolReplace cs = cs := by
  have hge : cs.all (fun c => c != geSym) = true :=
    all_mono (fun c hc => by
      simp only [noSym, Bool.and_eq_true] at hc; exact hc.1.1.1.1.1) h
  have hle : cs.all (fun c => c != leSym) = true :=
    all_mono (fun c hc => by
      simp only [noSym, Bool.and_eq_true] at hc; exact hc.1.1.1.1.2) h
  have hinf : cs.all (fun c => c != infSym) = true :=
    all_mono (fun c hc => by
      simp only [noSym, Bool.and_eq_true] at hc; exact hc.1.1.1.2) h
  have helem : cs.all (fun c => c != elemSym) = true :=
    all_mono (fun c hc => by
      simp only [noSym, Bool.and_eq_true] at hc; exact hc.1.1.2) h
  have hfa : cs.all (fun c => c != forallSym) = true :=
    all_mono (fun c hc => by
      simp only [noSym, Bool.and_eq_true] at hc; exact hc.1.2) h
  have hex : cs.all (fun c => c != existsSym) = true :=
    all_mono (fun c hc => by
      simp only [noSym, Bool.and_eq_true] at hc; exact hc.2) h
  unfold symbolReplace
  rw [replCh_eq_self geSym _ cs hge]
  rw [replCh_eq_self leSym _ cs hle]
  rw [replCh_eq_self infSym _ cs hinf]
  rw [replCh_eq_self elemSym _ cs helem]
  rw [replCh_eq_self forallSym _ cs hfa]
  rw [replCh_eq_self existsSym _ cs hex]

theorem sanitize_props (t : List Char) (ht : t.all (fun c => c != cmm) = true) :
    (sanitize t).all (fun c => c != cmm) = true
    ∧ (sanitize t).all noSym = true
    ∧ noAngle (sanitize t) = true := by
  unfold sanitize
  dsimp only
  have h1 : (removeTags (t.length + 1) t).all (fun c => c != cmm) = true :=
    sublist_all (removeTags_sublist _ _) ht
  have h2c := symbolReplace_all (by decide) (by decide) (by decide) (by decide)
    (by decide) (by decide) h1
  have h2s := symbolReplace_noSym (removeTags (t.length + 1) t)
  set s2 := symbolReplace (removeTags (t.length + 1) t) with hs2
  have h3c := angleSub_all (by decide) (by decide) (by decide) (by decide)
    (s2.length + 1) s2 h2c
  have h3s := angleSub_all (by decide) (by decide) (by decide) (by decide)
    (s2.length + 1) s2 h2s
  have h3a := angleSub_noAngle (s2.length + 1) s2 (Nat.lt_succ_self _)
  set s3 := angleSub (s2.length + 1) s2 with hs3
  have sub4 := commaClose_sublist rbr (s3.length + 1) s3
  set s4 := commaClose rbr (s3.length + 1) s3 with hs4
  have h4c := sublist_all sub4 h3c
  have h4s := sublist_all sub4 h3s
  have h4a := noAngle_sublist sub4 h3a
  have sub5 := commaClose_sublist rbk (s4.length + 1) s4
  set s5 := commaClose rbk (s4.length + 1) s4 with hs5
  have h5c := sublist_all sub5 h4c
  have h5s := sublist_all sub5 h4s
  have h5a := noAngle_sublist sub5 h4a
  rw [replCh_self dq s5]
  rw [replCh_self dq s5]
  have hrep : replaceSub line242Literal [apo] (s5.length + 1) s5 = s5 :=
    replaceSub_eq_self cmm _ [apo] _ s5 h5c
  rw [hrep]
  exact ⟨h5c, h5s, h5a⟩

/-- C3 (amended): the Sanitizer is idempotent on every input containing no
comma (the counterexample shows the trailing-comma stage alone breaks
idempotence in general): after one application the output contains no
removable tag span and no replaced symbol, the double-quote replaces of
line 241 are the identity on everything, and a comma-free text contains no
removable trailing comma and no occurrence of the line-242 literal (which
starts with a comma), so a second application is the identity. -/
theorem c3_sanitize_idempotent_no_comma (cs : List Char)
    (h : cs.all (fun c => c != cmm) = true) :
    sanitize (sanitize cs) = sanitize cs := by
  obtain ⟨hc2, hs2, ha2⟩ := sanitize_props cs h
  generalize hgen : sanitize cs = s at hc2 hs2 ha2 ⊢
  unfold sanitize
  dsimp only
  rw [removeTags_eq_self_of_noAngle _ _ ha2]
  rw [symbolReplace_eq_self hs2]
  rw [angleSub_eq_self_of_noAngle _ _ ha2]
  rw [commaClose_eq_self rbr _ _ hc2]
  rw [commaClose_eq_self rbk _ _ hc2]
  rw [replCh_self dq s]
  rw [replCh_self dq s]
  exact replaceSub_eq_self cmm _ [apo] _ s hc2

/-- Witness for C3 at a comma-free input exercising the tag and symbol
stages. -/
theorem c3_witness :
    sanitize (sanitize (("Prices are <b>high</b> and x ≤ y.").toList))
      = sanitize (("Prices are <b>high</b> and x ≤ y.").toList) :=
  c3_sanitize_idempotent_no_comma (("Prices are <b>high</b> and x ≤ y.").toList) (by decide)

/-- Witness for C9: a record without a difficulty field is returned with
medium. -/
theorem c9_witness :
    ((buildQuestion 0 (Json.obj
        [ (("question").toList, jstr ("Q?"))
        , (("options").toList, jlist ["A", "B"]) ])).getD defaultQuestion).difficulty
      = jstr ("medium") :=
  (c9_difficulty_default_only_when_absent 0
    [ (("question").toList, jstr ("Q?")), (("options").toList, jlist ["A", "B"]) ]
    ((buildQuestion 0 (Json.obj
        [ (("question").toList, jstr ("Q?"))
        , (("options").toList, jlist ["A", "B"]) ])).getD defaultQuestion)
    (by decide)).1 (by decide)

end ProfAI
